import Mathlib

/-!
Verification of `pysoem_tset.py` (eRob pysoem CST demo).

This file shallow-embeds the parts of the source that the claims are about:

* the CiA-402-style drive state machine inside `cyclic_operation_cst`
  (control word / target torque as a function of the `step` counter),
* the `step` counter update of that loop,
* the per-slave SDO write schedule of `configure_pdo_mapping` together with
  its error-counter (`retval`) accounting under an oracle that decides which
  writes fail,
* the working-counter classification of `cyclic_operation`,
* the per-tick state effect and the loop structure of `data_exchange_worker`,
* the pre-OP wait loop of `set_slaves_to_op_state_cst`.

Machine integers are modelled as `Nat` / `Int`; byte buffers as `List Nat`;
wall-clock time as observed values (milliseconds, `Nat`) supplied by a trace.
The cycle period `ETHERCAT_CYCLE_TIME_MS` (2.0 in the source) is modelled as a
natural number of milliseconds `periodMs`; for the periods 1..10 ms considered
by the claims, Python's `int(x / float(p))` agrees with `Nat` floor division.
-/

namespace ERobPysoem

/-! ## Drive state machine of `cyclic_operation_cst` (source lines 1301-1343) -/

/-- Output pair that `cyclic_operation_cst` writes to the shared variables
`_thread_controlword` and `_thread_target_torque` in one loop iteration. -/
structure DriveOutput where
  controlword : Nat
  target_torque : Int
  deriving DecidableEq, Repr

/-- Source: `base_duration_steps = int(base_duration_ms / ETHERCAT_CYCLE_TIME_MS)`
with `base_duration_ms = 4000`. -/
def base_duration_steps (periodMs : Nat) : Nat := 4000 / periodMs

/-- Source: `fault_reset_duration = int(base_duration_steps * 0.5) if
has_non_critical_error else base_duration_steps`. -/
def fault_reset_duration (periodMs : Nat) (hasNonCriticalError : Bool) : Nat :=
  if hasNonCriticalError then base_duration_steps periodMs / 2
  else base_duration_steps periodMs

/-- The control word / target torque that one iteration of the
`cyclic_operation_cst` loop assigns to the shared output variables, as a
function of the current `step` value (source lines 1311-1343).  The status
word read in the same iteration only drives the `fault_cleared` logging flag
and never changes these two assignments. -/
def cstDriveOutput (periodMs : Nat) (hasNonCriticalError : Bool) (step : Nat) :
    DriveOutput :=
  if step ≤ fault_reset_duration periodMs hasNonCriticalError then
    ⟨0x0080, 0⟩
  else if step ≤ fault_reset_duration periodMs hasNonCriticalError + 1000 / periodMs then
    ⟨0x0006, 0⟩
  else if step ≤ fault_reset_duration periodMs hasNonCriticalError + 2000 / periodMs then
    ⟨0x0007, 0⟩
  else if step ≤ fault_reset_duration periodMs hasNonCriticalError + 3000 / periodMs then
    ⟨0x000F, 0⟩
  else
    ⟨0x000F, 50⟩

/-- Source lines 1399-1403: `if step < 25000: step += 1`. -/
def stepUpdate (step : Nat) : Nat := if step < 25000 then step + 1 else step

/-- Value of the `step` counter at the start of iteration `n` of the
`cyclic_operation_cst` loop (`step` starts at 0). -/
def stepAfter : Nat → Nat
  | 0 => 0
  | n + 1 => stepUpdate (stepAfter n)

lemma stepAfter_eq_min (n : Nat) : stepAfter n = min n 25000 := by
  induction n with
  | zero => rfl
  | succ n ih =>
    simp only [stepAfter, stepUpdate, ih]
    split <;> omega

/-- Stage selected by the threshold comparisons, numbered 0 = FaultReset,
1 = Shutdown, 2 = SwitchOn, 3 = EnableOperation, 4 = Running. -/
def stageIndex (periodMs : Nat) (hasNonCriticalError : Bool) (step : Nat) : Nat :=
  if step ≤ fault_reset_duration periodMs hasNonCriticalError then 0
  else if step ≤ fault_reset_duration periodMs hasNonCriticalError + 1000 / periodMs then 1
  else if step ≤ fault_reset_duration periodMs hasNonCriticalError + 2000 / periodMs then 2
  else if step ≤ fault_reset_duration periodMs hasNonCriticalError + 3000 / periodMs then 3
  else 4

/-- The spec's end-to-end schedule expressed on the wall-clock axis
(milliseconds since the loop start, each iteration lasting one period):
0x0080 for the first 4000 ms, 0x0006 for the next 1000 ms, 0x0007 for the
next 1000 ms, 0x000F with torque 0 for the next 1000 ms, then 0x000F with
torque 50.  Refinement counterpart of `cstDriveOutput`, written from the
spec's words. -/
def specEnableSequenceAtMs (tMs : Nat) : DriveOutput :=
  if tMs ≤ 4000 then ⟨0x0080, 0⟩
  else if tMs ≤ 5000 then ⟨0x0006, 0⟩
  else if tMs ≤ 6000 then ⟨0x0007, 0⟩
  else if tMs ≤ 7000 then ⟨0x000F, 0⟩
  else ⟨0x000F, 50⟩

/-- C1: with a 2 ms period and no non-critical error, the control word /
torque pair written at iteration `n` of `cyclic_operation_cst` (whose `step`
counter is `stepAfter n`) follows exactly the CiA-402 enable sequence of the
spec: 0x0080 / torque 0 up to the 4000 ms fault-reset threshold, then 0x0006,
0x0007, 0x000F with torque 0 for 1000 ms each, then 0x000F with torque 50
for every later step. -/
theorem c1_cst_enable_sequence (n : Nat) :
    cstDriveOutput 2 false (stepAfter n) = specEnableSequenceAtMs (2 * n) := by
  rw [stepAfter_eq_min]
  simp only [cstDriveOutput, specEnableSequenceAtMs, fault_reset_duration,
    base_duration_steps]
  norm_num
  split_ifs <;> first | rfl | (exfalso; omega)

/-- C2: for every period between 1 and 10 ms, every `step` at or below the
EnableOperation threshold (fault-reset step count plus 3000 ms converted to
steps) gets target torque 0. -/
theorem c2_no_torque_before_enable (periodMs : Nat) (h1 : 1 ≤ periodMs)
    (h10 : periodMs ≤ 10) (hasNonCriticalError : Bool) (step : Nat)
    (hstep : step ≤ fault_reset_duration periodMs hasNonCriticalError + 3000 / periodMs) :
    (cstDriveOutput periodMs hasNonCriticalError step).target_torque = 0 := by
  simp only [cstDriveOutput]
  split_ifs <;> rfl

/-- Witness for `c2_no_torque_before_enable` at period 2 ms, step 3500. -/
theorem c2_no_torque_before_enable_witness :
    1 ≤ 2 ∧ 2 ≤ 10 ∧ 3500 ≤ fault_reset_duration 2 false + 3000 / 2 ∧
      (cstDriveOutput 2 false 3500).target_torque = 0 :=
  ⟨by decide, by decide, by decide,
    c2_no_torque_before_enable 2 (by decide) (by decide) false 3500 (by decide)⟩

lemma stageIndex_mono (periodMs : Nat) (hnc : Bool) {s s' : Nat} (h : s ≤ s') :
    stageIndex periodMs hnc s ≤ stageIndex periodMs hnc s' := by
  have h12 : 1000 / periodMs ≤ 2000 / periodMs :=
    Nat.div_le_div_right (by norm_num)
  have h23 : 2000 / periodMs ≤ 3000 / periodMs :=
    Nat.div_le_div_right (by norm_num)
  simp only [stageIndex]
  generalize fault_reset_duration periodMs hnc = a at *
  generalize 1000 / periodMs = b at *
  generalize 2000 / periodMs = c at *
  generalize 3000 / periodMs = d at *
  split_ifs <;> omega

lemma cstDriveOutput_running_iff (periodMs : Nat) (hnc : Bool) (s : Nat) :
    cstDriveOutput periodMs hnc s = ⟨0x000F, 50⟩ ↔
      fault_reset_duration periodMs hnc + 3000 / periodMs < s := by
  have h12 : 1000 / periodMs ≤ 2000 / periodMs :=
    Nat.div_le_div_right (by norm_num)
  have h23 : 2000 / periodMs ≤ 3000 / periodMs :=
    Nat.div_le_div_right (by norm_num)
  simp only [cstDriveOutput, DriveOutput.mk.injEq]
  generalize fault_reset_duration periodMs hnc = a at *
  generalize 1000 / periodMs = b at *
  generalize 2000 / periodMs = c at *
  generalize 3000 / periodMs = d at *
  split_ifs <;> constructor <;> intro hx <;> first | omega | simp_all

/-- C10: within one run, the `step` counter is non-decreasing, increases by
at most one per iteration and never exceeds 25000; the stage index selected
by the threshold comparisons is therefore monotone over iterations, and once
the running stage (control word 0x000F, torque 50) has been entered it is
never left. -/
theorem c10_step_monotone (periodMs : Nat) (hnc : Bool) (n m : Nat)
    (hnm : n ≤ m) :
    stepAfter n ≤ stepAfter m ∧
    stepAfter (n + 1) ≤ stepAfter n + 1 ∧
    stepAfter n ≤ 25000 ∧
    stageIndex periodMs hnc (stepAfter n) ≤ stageIndex periodMs hnc (stepAfter m) ∧
    (cstDriveOutput periodMs hnc (stepAfter n) = ⟨0x000F, 50⟩ →
      cstDriveOutput periodMs hnc (stepAfter m) = ⟨0x000F, 50⟩) := by
  have hmono : stepAfter n ≤ stepAfter m := by
    rw [stepAfter_eq_min, stepAfter_eq_min]; omega
  refine ⟨hmono, ?_, ?_, stageIndex_mono periodMs hnc hmono, ?_⟩
  · rw [stepAfter_eq_min, stepAfter_eq_min]; omega
  · rw [stepAfter_eq_min]; omega
  · intro hrun
    rw [cstDriveOutput_running_iff] at hrun ⊢
    omega

/-- Witness for `c10_step_monotone` at period 2 ms, iterations 10 ≤ 20. -/
theorem c10_step_monotone_witness :
    (10 : Nat) ≤ 20 ∧
      (stepAfter 10 ≤ stepAfter 20 ∧
       stepAfter (10 + 1) ≤ stepAfter 10 + 1 ∧
       stepAfter 10 ≤ 25000 ∧
       stageIndex 2 false (stepAfter 10) ≤ stageIndex 2 false (stepAfter 20) ∧
       (cstDriveOutput 2 false (stepAfter 10) = ⟨0x000F, 50⟩ →
         cstDriveOutput 2 false (stepAfter 20) = ⟨0x000F, 50⟩)) :=
  ⟨by decide, c10_step_monotone 2 false 10 20 (by decide)⟩

/-! ## PDO mapping configuration (`configure_pdo_mapping`, source lines 348-581)

Each SDO write in the function body sits in its own `try/except`.  We model a
run with an oracle `ok : Nat → Bool` giving, for each attempt position in the
per-slave schedule, whether the write succeeds.  Failures of the mapping
entry, mapping-count and assignment writes decrement `retval`; failures of
the three clear writes and of the torque-limit writes are only logged.  The
two torque-limit writes share one `try` block, so a failing write to 0x60E0
skips the write to 0x60E1. -/

/-- One SDO object write: object index, subindex, value written, and how
many bytes `to_bytes` packs it into. -/
structure SdoWrite where
  index : Nat
  subindex : Nat
  value : Nat
  nbytes : Nat
  deriving DecidableEq, Repr

/-- The fixed per-slave schedule of `configure_pdo_mapping` before the
torque-limit writes, in source order.  The `Bool` says whether a failure of
that write decrements `retval` (`retval -= 1` in the matching `except`). -/
def slaveWriteSchedule : List (SdoWrite × Bool) :=
  [ (⟨0x1600, 0x00, 0, 1⟩, false),            -- clear RXPDO map
    (⟨0x1600, 0x01, 0x60400010, 4⟩, true),    -- control word, 16 bit
    (⟨0x1600, 0x02, 0x60710010, 4⟩, true),    -- target torque, 16 bit signed
    (⟨0x1600, 0x03, 0x60600008, 4⟩, true),    -- mode of operation, 8 bit
    (⟨0x1600, 0x04, 0x00000008, 4⟩, true),    -- padding, 8 bit
    (⟨0x1600, 0x00, 4, 1⟩, true),             -- RXPDO map count = 4
    (⟨0x1C12, 0x00, 0, 2⟩, false),            -- clear RXPDO assignment
    (⟨0x1C12, 0x01, 0x1600, 2⟩, true),        -- assignment sub-slot 1
    (⟨0x1C12, 0x00, 1, 2⟩, true),             -- assignment count = 1
    (⟨0x1A00, 0x00, 0, 2⟩, false),            -- clear TXPDO map
    (⟨0x1A00, 0x01, 0x60410010, 4⟩, true),    -- status word, 16 bit
    (⟨0x1A00, 0x02, 0x60640020, 4⟩, true),    -- actual position, 32 bit
    (⟨0x1A00, 0x03, 0x606C0020, 4⟩, true),    -- actual velocity, 32 bit
    (⟨0x1A00, 0x04, 0x60770010, 4⟩, true),    -- actual torque, 16 bit
    (⟨0x1A00, 0x00, 4, 1⟩, true),             -- TXPDO map count = 4
    (⟨0x1C13, 0x00, 0, 2⟩, false),            -- clear TXPDO assignment
    (⟨0x1C13, 0x01, 0x1A00, 2⟩, true),        -- assignment sub-slot 1
    (⟨0x1C13, 0x00, 1, 2⟩, true) ]            -- assignment count = 1

/-- Run a schedule of independent `try`-wrapped writes starting at attempt
position `pos`.  Returns the attempts (each paired with whether it
succeeded) and the `retval` delta. -/
def runSchedule (ok : Nat → Bool) :
    List (SdoWrite × Bool) → Nat → List (SdoWrite × Bool) × Int
  | [], _ => ([], 0)
  | (w, counted) :: rest, pos =>
    let r := runSchedule ok rest (pos + 1)
    ((w, ok pos) :: r.1,
      (if ok pos then 0 else if counted then -1 else 0) + r.2)

/-- The torque-limit writes (source lines 559-567): both 0x60E0 and 0x60E1
sit in one `try` block, so a failing 0x60E0 write skips the 0x60E1 write;
neither failure decrements `retval`.  Attempt positions 18 and 19. -/
def torqueLimitAttempts (ok : Nat → Bool) : List (SdoWrite × Bool) :=
  if ok 18 then
    [(⟨0x60E0, 0x00, 0, 2⟩, true), (⟨0x60E1, 0x00, 0, 2⟩, ok 19)]
  else
    [(⟨0x60E0, 0x00, 0, 2⟩, false)]

/-- One slave's pass through the `configure_pdo_mapping` body: the list of
attempted writes (with their outcomes) and the `retval` delta. -/
def configureSlave (ok : Nat → Bool) : List (SdoWrite × Bool) × Int :=
  ((runSchedule ok slaveWriteSchedule 0).1 ++ torqueLimitAttempts ok,
    (runSchedule ok slaveWriteSchedule 0).2)

/-- The loop over `master.slaves`: per-slave attempt lists in slave order and
the accumulated `retval`. -/
def configSlaves (ok : Nat → Nat → Bool) : Nat → List (List (SdoWrite × Bool)) × Int
  | 0 => ([], 0)
  | n + 1 =>
    ((configSlaves ok n).1 ++ [(configureSlave (ok n)).1],
      (configSlaves ok n).2 + (configureSlave (ok n)).2)

/-- Overall result of `configure_pdo_mapping`: `False` iff `retval < 0` at
the end (source lines 575-581). -/
def configure_pdo_mapping_ok (nSlaves : Nat) (ok : Nat → Nat → Bool) : Bool :=
  decide (0 ≤ (configSlaves ok nSlaves).2)

/-- Number of failed writes in a schedule whose failure is counted
(decrements `retval`). -/
def failedCountedWrites (ok : Nat → Bool) :
    List (SdoWrite × Bool) → Nat → Nat
  | [], _ => 0
  | (_, counted) :: rest, pos =>
    (if ¬ ok pos ∧ counted then 1 else 0) + failedCountedWrites ok rest (pos + 1)

lemma runSchedule_writes (ok : Nat → Bool) :
    ∀ (l : List (SdoWrite × Bool)) (pos : Nat),
      (runSchedule ok l pos).1.map Prod.fst = l.map Prod.fst := by
  intro l
  induction l with
  | nil => intro pos; rfl
  | cons hd tl ih =>
    intro pos
    obtain ⟨w, counted⟩ := hd
    simp [runSchedule, ih (pos + 1)]

lemma runSchedule_retval (ok : Nat → Bool) :
    ∀ (l : List (SdoWrite × Bool)) (pos : Nat),
      (runSchedule ok l pos).2 = -(failedCountedWrites ok l pos : Int) := by
  intro l
  induction l with
  | nil => intro pos; rfl
  | cons hd tl ih =>
    intro pos
    obtain ⟨w, counted⟩ := hd
    simp only [runSchedule, failedCountedWrites, ih (pos + 1)]
    by_cases h : ok pos <;> cases counted <;> simp [h] <;> omega

lemma configureSlave_retval_nonpos (ok : Nat → Bool) :
    (configureSlave ok).2 ≤ 0 := by
  simp only [configureSlave, runSchedule_retval]
  omega

lemma configSlaves_retval_nonpos (ok : Nat → Nat → Bool) :
    ∀ n, (configSlaves ok n).2 ≤ 0 := by
  intro n
  induction n with
  | zero => simp [configSlaves]
  | succ n ih =>
    simp only [configSlaves]
    have := configureSlave_retval_nonpos (ok n)
    omega

lemma configSlaves_length (ok : Nat → Nat → Bool) :
    ∀ n, (configSlaves ok n).1.length = n := by
  intro n
  induction n with
  | zero => rfl
  | succ n ih => simp [configSlaves, ih]

lemma configSlaves_get (ok : Nat → Nat → Bool) :
    ∀ n s, s < n → (configSlaves ok n).1.get? s = some (configureSlave (ok s)).1 := by
  intro n
  induction n with
  | zero => intro s hs; omega
  | succ n ih =>
    intro s hs
    simp only [configSlaves]
    rcases Nat.lt_or_ge s n with h | h
    · rw [List.get?_append]
      · exact ih s h
      · rw [configSlaves_length]; exact h
    · have hsn : s = n := by omega
      subst hsn
      have hlen : (configSlaves ok s).1.length = s := configSlaves_length ok s
      have hcat := List.get?_concat_length (configSlaves ok s).1 (configureSlave (ok s)).1
      rw [hlen] at hcat
      exact hcat

/-- C3: for every slave, the attempted writes restricted to each of the two
mapping objects are exactly: entry count 0, the four entry descriptors into
sub-slots 1..4 in the mandated order (receive map: control word 16 bit,
target torque 16 bit signed, mode of operation 8 bit, padding 8 bit), entry
count 4; and restricted to each assignment object: count 0, the map's object
index into sub-slot 1, count 1 — regardless of which writes fail. -/
theorem c3_mapping_write_order (nSlaves s : Nat) (hs : s < nSlaves)
    (ok : Nat → Nat → Bool) :
    (configSlaves ok nSlaves).1.get? s = some (configureSlave (ok s)).1 ∧
    ((configureSlave (ok s)).1.map Prod.fst).filter (fun w => w.index == 0x1600) =
      [⟨0x1600, 0x00, 0, 1⟩, ⟨0x1600, 0x01, 0x60400010, 4⟩,
       ⟨0x1600, 0x02, 0x60710010, 4⟩, ⟨0x1600, 0x03, 0x60600008, 4⟩,
       ⟨0x1600, 0x04, 0x00000008, 4⟩, ⟨0x1600, 0x00, 4, 1⟩] ∧
    ((configureSlave (ok s)).1.map Prod.fst).filter (fun w => w.index == 0x1A00) =
      [⟨0x1A00, 0x00, 0, 2⟩, ⟨0x1A00, 0x01, 0x60410010, 4⟩,
       ⟨0x1A00, 0x02, 0x60640020, 4⟩, ⟨0x1A00, 0x03, 0x606C0020, 4⟩,
       ⟨0x1A00, 0x04, 0x60770010, 4⟩, ⟨0x1A00, 0x00, 4, 1⟩] ∧
    ((configureSlave (ok s)).1.map Prod.fst).filter (fun w => w.index == 0x1C12) =
      [⟨0x1C12, 0x00, 0, 2⟩, ⟨0x1C12, 0x01, 0x1600, 2⟩, ⟨0x1C12, 0x00, 1, 2⟩] ∧
    ((configureSlave (ok s)).1.map Prod.fst).filter (fun w => w.index == 0x1C13) =
      [⟨0x1C13, 0x00, 0, 2⟩, ⟨0x1C13, 0x01, 0x1A00, 2⟩, ⟨0x1C13, 0x00, 1, 2⟩] := by
  refine ⟨configSlaves_get ok nSlaves s hs, ?_, ?_, ?_, ?_⟩ <;>
  · simp only [configureSlave, List.map_append, runSchedule_writes,
      List.filter_append]
    by_cases h : ok s 18 <;>
      simp [torqueLimitAttempts, h, slaveWriteSchedule, List.filter]

/-- Witness for `c3_mapping_write_order`: one slave, every write succeeds. -/
theorem c3_mapping_write_order_witness :
    (0 : Nat) < 1 ∧
      (configSlaves (fun _ _ => true) 1).1.get? 0 =
        some (configureSlave ((fun _ _ => true) 0)).1 :=
  ⟨by decide, (c3_mapping_write_order 1 0 (by decide) (fun _ _ => true)).1⟩

/-- C5 as stated is false: a failed write need not decrement the error
counter.  With an oracle failing exactly the first write (the clear of
0x1600), that write is attempted and fails, yet `retval` stays 0 and the
call reports success. -/
theorem c5_counterexample :
    ((configureSlave (fun p => decide (p ≠ 0))).1.head? =
        some (⟨0x1600, 0x00, 0, 1⟩, false)) ∧
    (configureSlave (fun p => decide (p ≠ 0))).2 = 0 ∧
    configure_pdo_mapping_ok 1 (fun _ p => decide (p ≠ 0)) = true := by
  decide

/-- C5 amended: every write in the fixed per-slave schedule is attempted no
matter which earlier writes fail, except that a failed positive-torque-limit
write (0x60E0) skips the negative-torque-limit write (0x60E1); the error
counter ends at minus the number of failed counted writes (mapping entries,
mapping counts, assignment writes — clear and torque-limit failures are not
counted); and the overall call reports failure iff the accumulated error
counter is non-zero at the end. -/
theorem c5_error_counter_policy (ok : Nat → Bool) (nSlaves : Nat)
    (okS : Nat → Nat → Bool) :
    (configureSlave ok).1.map Prod.fst =
      slaveWriteSchedule.map Prod.fst ++
        (if ok 18 then [⟨0x60E0, 0x00, 0, 2⟩, ⟨0x60E1, 0x00, 0, 2⟩]
         else [⟨0x60E0, 0x00, 0, 2⟩]) ∧
    (configureSlave ok).2 = -(failedCountedWrites ok slaveWriteSchedule 0 : Int) ∧
    (configure_pdo_mapping_ok nSlaves okS = true ↔
      (configSlaves okS nSlaves).2 = 0) := by
  refine ⟨?_, ?_, ?_⟩
  · simp only [configureSlave, List.map_append, runSchedule_writes]
    by_cases h : ok 18 <;> simp [torqueLimitAttempts, h]
  · simp [configureSlave, runSchedule_retval]
  · have := configSlaves_retval_nonpos okS nSlaves
    simp only [configure_pdo_mapping_ok, decide_eq_true_eq]
    omega

/-! ## Working-counter classification in `cyclic_operation` (source lines 1455-1511, 1551) -/

/-- Running counters of `cyclic_operation`: `success_count`, `timeout_count`,
`low_wkc_count` and `cycle_count`. -/
structure WkcStats where
  success : Nat
  timeout : Nat
  lowWkc : Nat
  cycleCount : Nat
  deriving DecidableEq, Repr

/-- One pass of the `wkc` branch chain of `cyclic_operation`:
`if wkc == -1` → timeout, `elif wkc < expected` → degraded,
`elif wkc >= expected` → success (the last branch is reached exactly when
`wkc ≥ expected`, and also bumps `cycle_count`). -/
def observeWkc (expected : Nat) (s : WkcStats) (wkc : Int) : WkcStats :=
  if wkc = -1 then { s with timeout := s.timeout + 1 }
  else if wkc < expected then { s with lowWkc := s.lowWkc + 1 }
  else { s with success := s.success + 1, cycleCount := s.cycleCount + 1 }

/-- The running totals after classifying a list of received `wkc` values,
starting from stats `s`. -/
def observeAll (expected : Nat) (s : WkcStats) (wkcs : List Int) : WkcStats :=
  wkcs.foldl (observeWkc expected) s

lemma observeWkc_total (expected : Nat) (s : WkcStats) (wkc : Int) :
    (observeWkc expected s wkc).success + (observeWkc expected s wkc).timeout +
        (observeWkc expected s wkc).lowWkc =
      s.success + s.timeout + s.lowWkc + 1 := by
  simp only [observeWkc]
  split_ifs <;> simp <;> omega

lemma observeAll_total (expected : Nat) :
    ∀ (wkcs : List Int) (s : WkcStats),
      (observeAll expected s wkcs).success + (observeAll expected s wkcs).timeout +
          (observeAll expected s wkcs).lowWkc =
        s.success + s.timeout + s.lowWkc + wkcs.length := by
  intro wkcs
  induction wkcs with
  | nil => intro s; simp [observeAll]
  | cons w tl ih =>
    intro s
    have h := ih (observeWkc expected s w)
    have h2 := observeWkc_total expected s w
    simp only [observeAll, List.foldl_cons] at h ⊢
    simp only [List.length_cons]
    omega

/-- C4: the per-cycle working-counter classification is exhaustive and
exclusive — the sentinel -1 is classified timeout, any other value below the
expected counter degraded, and any value at or above it success — and after
any sequence of classified receive calls the three totals sum to the number
of calls (so at every point of the run, since every point is reached by
folding a prefix). -/
theorem c4_wkc_classification (expected : Nat) (s : WkcStats) (wkc : Int)
    (wkcs : List Int) :
    (wkc = -1 → observeWkc expected s wkc = { s with timeout := s.timeout + 1 }) ∧
    (wkc ≠ -1 → wkc < expected →
      observeWkc expected s wkc = { s with lowWkc := s.lowWkc + 1 }) ∧
    ((expected : Int) ≤ wkc →
      observeWkc expected s wkc =
        { s with success := s.success + 1, cycleCount := s.cycleCount + 1 }) ∧
    ((observeAll expected s wkcs).success + (observeAll expected s wkcs).timeout +
        (observeAll expected s wkcs).lowWkc =
      s.success + s.timeout + s.lowWkc + wkcs.length) := by
  refine ⟨?_, ?_, ?_, observeAll_total expected wkcs s⟩
  · intro h; simp [observeWkc, h]
  · intro h1 h2; simp [observeWkc, h1, h2]
  · intro h
    have h1 : wkc ≠ -1 := by omega
    have h2 : ¬ wkc < expected := by omega
    simp [observeWkc, h1, h2]

/-- Witness for `c4_wkc_classification`: expected counter 2, one receive of
each class. -/
theorem c4_wkc_classification_witness :
    observeWkc 2 ⟨0, 0, 0, 0⟩ (-1) = ⟨0, 1, 0, 0⟩ ∧
    observeWkc 2 ⟨0, 0, 0, 0⟩ 1 = ⟨0, 0, 1, 0⟩ ∧
    observeWkc 2 ⟨0, 0, 0, 0⟩ 2 = ⟨1, 0, 0, 1⟩ ∧
    (observeAll 2 ⟨0, 0, 0, 0⟩ [-1, 1, 2]).success +
        (observeAll 2 ⟨0, 0, 0, 0⟩ [-1, 1, 2]).timeout +
        (observeAll 2 ⟨0, 0, 0, 0⟩ [-1, 1, 2]).lowWkc = 3 :=
  ⟨(c4_wkc_classification 2 ⟨0, 0, 0, 0⟩ (-1) []).1 rfl,
   (c4_wkc_classification 2 ⟨0, 0, 0, 0⟩ 1 []).2.1 (by decide) (by decide),
   (c4_wkc_classification 2 ⟨0, 0, 0, 0⟩ 2 []).2.2.1 (by decide),
   (c4_wkc_classification 2 ⟨0, 0, 0, 0⟩ 2 [-1, 1, 2]).2.2.2⟩

/-! ## Output-frame encoding and worker tick (`data_exchange_worker`, source lines 886-938) -/

/-- Little-endian bytes of a 16-bit signed value, as produced by
`to_bytes(2, 'little', signed=True)`: two's-complement low and high byte. -/
def int16LE (t : Int) : Nat × Nat :=
  ((t % 65536).toNat % 256, (t % 65536).toNat / 256)

/-- Per-slave encode step of the worker (source lines 903-914): if the raw
output buffer holds at least 6 bytes, bytes 0-5 become control word (LE 16
bit), target torque (signed LE 16 bit), mode of operation, padding, and the
rest of the buffer is kept; otherwise the buffer is left unchanged. -/
def encodeFrame (cw : Nat) (torque : Int) (mode padding : Nat)
    (buf : List Nat) : List Nat :=
  if 6 ≤ buf.length then
    cw % 256 :: cw / 256 % 256 :: (int16LE torque).1 :: (int16LE torque).2 ::
      mode :: padding :: buf.drop 6
  else buf

/-- The encode loop over all slaves' output buffers. -/
def encodeOutputs (cw : Nat) (torque : Int) (mode padding : Nat)
    (bufs : List (List Nat)) : List (List Nat) :=
  bufs.map (encodeFrame cw torque mode padding)

/-- C9: on each tick the encode step writes control word (LE 16 bit at
bytes 0-1), target torque (signed LE 16 bit at bytes 2-3), mode (byte 4)
and padding (byte 5) into every buffer of length at least 6, leaving bytes 6
and above unchanged; every shorter buffer is left entirely unchanged; and
the per-slave loop applies exactly this to each slave's buffer. -/
theorem c9_encode_frame_effect (cw : Nat) (torque : Int) (mode padding : Nat)
    (buf : List Nat) (h6 : 6 ≤ buf.length) :
    (encodeFrame cw torque mode padding buf).get? 0 = some (cw % 256) ∧
    (encodeFrame cw torque mode padding buf).get? 1 = some (cw / 256 % 256) ∧
    (encodeFrame cw torque mode padding buf).get? 2 =
      some ((torque % 65536).toNat % 256) ∧
    (encodeFrame cw torque mode padding buf).get? 3 =
      some ((torque % 65536).toNat / 256) ∧
    (encodeFrame cw torque mode padding buf).get? 4 = some mode ∧
    (encodeFrame cw torque mode padding buf).get? 5 = some padding ∧
    (encodeFrame cw torque mode padding buf).drop 6 = buf.drop 6 ∧
    (encodeFrame cw torque mode padding buf).length = buf.length ∧
    (∀ short : List Nat, short.length < 6 →
      encodeFrame cw torque mode padding short = short) ∧
    (∀ (bufs : List (List Nat)) (i : Nat),
      (encodeOutputs cw torque mode padding bufs).get? i =
        (bufs.get? i).map (encodeFrame cw torque mode padding)) := by
  have he : encodeFrame cw torque mode padding buf =
      cw % 256 :: cw / 256 % 256 :: (int16LE torque).1 :: (int16LE torque).2 ::
        mode :: padding :: buf.drop 6 := by
    unfold encodeFrame
    rw [if_pos h6]
  refine ⟨?_, ?_, ?_, ?_, ?_, ?_, ?_, ?_, ?_, ?_⟩
  · rw [he]; rfl
  · rw [he]; rfl
  · rw [he]; rfl
  · rw [he]; rfl
  · rw [he]; rfl
  · rw [he]; rfl
  · rw [he]; rfl
  · rw [he]
    simp [List.length_drop]
    omega
  · intro short hshort
    have hn : ¬ 6 ≤ short.length := by omega
    simp [encodeFrame, hn]
  · intro bufs i
    simp [encodeOutputs, List.get?_map]

/-- Witness for `c9_encode_frame_effect` on a concrete 8-byte buffer. -/
theorem c9_encode_frame_effect_witness :
    6 ≤ ([9, 9, 9, 9, 9, 9, 7, 8] : List Nat).length ∧
      (encodeFrame 0x000F 50 10 0 [9, 9, 9, 9, 9, 9, 7, 8]).get? 0 =
        some (0x000F % 256) :=
  ⟨by decide, (c9_encode_frame_effect 0x000F 50 10 0 [9, 9, 9, 9, 9, 9, 7, 8]
    (by decide)).1⟩

/-- Module-level shared state touched by one worker tick: the cycle counter
`_data_exchange_cycle_count`, the shared semantic output fields
`_thread_controlword` / `_thread_target_torque` / `_thread_mode_of_operation`
(read-only inside the worker), and the slaves' raw output buffers. -/
structure WorkerGlobals where
  cycleCount : Nat
  controlword : Nat
  targetTorque : Int
  modeOfOperation : Nat
  outputs : List (List Nat)
  deriving DecidableEq, Repr

/-- One tick of `data_exchange_worker` (source lines 891-923): receive a
working counter `wkc`, compare it with the expected working counter (the
source's `if wkc >= master.expected_wkc:` body is `pass`, so the comparison
updates nothing), encode the shared output fields into every large-enough
buffer, send, and bump the cycle counter. -/
def workerTick (expectedWkc : Nat) (wkc : Int) (g : WorkerGlobals) :
    WorkerGlobals :=
  let g := if (expectedWkc : Int) ≤ wkc then g else g
  { g with
    outputs := encodeOutputs g.controlword g.targetTorque g.modeOfOperation 0 g.outputs,
    cycleCount := g.cycleCount + 1 }

/-- C8 as stated is false: the worker does not record the received working
counter anywhere.  On a concrete state, a tick that receives the timeout
sentinel -1 leaves exactly the same global state as a tick that receives a
successful working counter — no success / degraded / timeout total exists in
the worker, only the cycle counter moves. -/
theorem c8_counterexample :
    workerTick 1 (-1) ⟨0, 0x0080, 0, 10, [[0, 0, 0, 0, 0, 0]]⟩ =
      workerTick 1 1 ⟨0, 0x0080, 0, 10, [[0, 0, 0, 0, 0, 0]]⟩ ∧
    (workerTick 1 (-1) ⟨0, 0x0080, 0, 10, [[0, 0, 0, 0, 0, 0]]⟩).cycleCount = 1 := by
  decide

/-- C8 amended: on every tick the worker receives the working counter and
compares it with the expected value, but records nothing derived from it —
the tick's entire effect is independent of the received value; it only
increments the shared cycle counter, re-encodes the (unchanged) semantic
output fields into the buffers, and sends.  The success / degraded / timeout
totals live only in the separate `cyclic_operation` loop. -/
theorem c8_worker_ignores_wkc (expectedWkc : Nat) (wkc wkc' : Int)
    (g : WorkerGlobals) :
    workerTick expectedWkc wkc g = workerTick expectedWkc wkc' g ∧
    (workerTick expectedWkc wkc g).cycleCount = g.cycleCount + 1 ∧
    (workerTick expectedWkc wkc g).controlword = g.controlword ∧
    (workerTick expectedWkc wkc g).targetTorque = g.targetTorque ∧
    (workerTick expectedWkc wkc g).modeOfOperation = g.modeOfOperation ∧
    (workerTick expectedWkc wkc g).outputs =
      encodeOutputs g.controlword g.targetTorque g.modeOfOperation 0 g.outputs := by
  constructor
  · simp only [workerTick]
    split_ifs <;> rfl
  · simp only [workerTick]
    split_ifs <;> exact ⟨rfl, rfl, rfl, rfl, rfl⟩

/-! ## Worker loop survival (`data_exchange_worker`, source lines 886-938)

The loop body is one big `try`; on any exception the `except` arm sleeps one
cycle period and the `while _data_exchange_running` loop continues.  We model
the running flag and the occurrence of an exception in tick `k` as oracles,
and the loop as a fuel-bounded trace of tick events. -/

/-- What one iteration of the worker loop did. -/
inductive TickEvent where
  | normal : TickEvent
  | backoff : TickEvent
  deriving DecidableEq, Repr

/-- Trace of the worker loop from iteration `k` on, with `fuel` iterations
observed: while the running flag holds, an iteration whose tick raises adds
a `backoff` event (sleep one period, continue), any other iteration a
`normal` event; the loop stops only when the flag is false. -/
def workerLoopTrace (running exc : Nat → Bool) : Nat → Nat → List TickEvent
  | 0, _ => []
  | fuel + 1, k =>
    if running k then
      (if exc k then TickEvent.backoff else TickEvent.normal) ::
        workerLoopTrace running exc fuel (k + 1)
    else []

lemma workerLoopTrace_length (running exc : Nat → Bool) :
    ∀ (fuel k : Nat),
      (workerLoopTrace running exc fuel k).length =
        (workerLoopTrace running (fun _ => false) fuel k).length := by
  intro fuel
  induction fuel with
  | zero => intro k; rfl
  | succ fuel ih =>
    intro k
    simp only [workerLoopTrace]
    by_cases h : running k <;> simp [h, ih (k + 1)]

lemma workerLoopTrace_get (running exc : Nat → Bool) :
    ∀ (fuel k n : Nat), n < fuel → (∀ j ≤ n, running (k + j) = true) →
      (workerLoopTrace running exc fuel k).get? n =
        some (if exc (k + n) then TickEvent.backoff else TickEvent.normal) := by
  intro fuel
  induction fuel with
  | zero => intro k n hn; omega
  | succ fuel ih =>
    intro k n hn hrun
    have hk : running k = true := by
      have := hrun 0 (Nat.zero_le n)
      simpa using this
    simp only [workerLoopTrace, hk, if_true]
    cases n with
    | zero => simp
    | succ n =>
      have hrec := ih (k + 1) n (by omega) ?_
      · simpa [Nat.add_assoc, Nat.add_comm 1 n] using hrec
      · intro j hj
        have := hrun (j + 1) (by omega)
        simpa [Nat.add_assoc, Nat.add_comm 1 j] using this

/-- C7: an exception inside one tick never terminates the worker loop.  For
any pattern of exceptions the trace is exactly as long as with no exceptions
at all, and every iteration reached while the running flag has stayed set is
executed — a raising one as a logged one-period backoff, any other as a
normal tick — after which the loop moves on to the next iteration. -/
theorem c7_worker_survives_exceptions (running exc : Nat → Bool)
    (fuel k n : Nat) (hn : n < fuel) (hrun : ∀ j ≤ n, running (k + j) = true) :
    (workerLoopTrace running exc fuel k).length =
      (workerLoopTrace running (fun _ => false) fuel k).length ∧
    (workerLoopTrace running exc fuel k).get? n =
      some (if exc (k + n) then TickEvent.backoff else TickEvent.normal) :=
  ⟨workerLoopTrace_length running exc fuel k,
   workerLoopTrace_get running exc fuel k n hn hrun⟩

/-- Witness for `c7_worker_survives_exceptions`: the flag stays set for 3
iterations and the second tick raises; the loop still runs it as a backoff. -/
theorem c7_worker_survives_exceptions_witness :
    (1 : Nat) < 3 ∧
      ((workerLoopTrace (fun _ => true) (fun j => decide (j = 1)) 3 0).length =
          (workerLoopTrace (fun _ => true) (fun _ => false) 3 0).length ∧
        (workerLoopTrace (fun _ => true) (fun j => decide (j = 1)) 3 0).get? 1 =
          some (if decide ((0 + 1 : Nat) = 1) = true then TickEvent.backoff
            else TickEvent.normal)) :=
  ⟨by decide,
   c7_worker_survives_exceptions (fun _ => true) (fun j => decide (j = 1)) 3 0 1
     (by decide) (fun j _ => rfl)⟩

/-! ## Pre-OP wait loop (`set_slaves_to_op_state_cst`, source lines 1013-1054)

`while _data_exchange_cycle_count < wait_cycles: sleep(period); if elapsed >
1.0: break` with `wait_cycles = 300`.  `counts k` is the observed cycle count
at the `k`-th top-of-loop check, `elapsedMs k` the observed wall-clock
milliseconds after the `k`-th sleep.  The loop result `some k` means the loop
exited at check `k` and the function went on to write the Operational state
request to the slaves. -/

def opWaitLoop (counts elapsedMs : Nat → Nat) : Nat → Nat → Option Nat
  | 0, _ => none
  | fuel + 1, k =>
    if 300 ≤ counts k then some k
    else if 1000 < elapsedMs k then some k
    else opWaitLoop counts elapsedMs fuel (k + 1)

lemma opWaitLoop_sound (counts elapsedMs : Nat → Nat) :
    ∀ (fuel k m : Nat), opWaitLoop counts elapsedMs fuel k = some m →
      k ≤ m ∧ (300 ≤ counts m ∨ 1000 < elapsedMs m) ∧
        ∀ i, k ≤ i → i < m → counts i < 300 ∧ elapsedMs i ≤ 1000 := by
  intro fuel
  induction fuel with
  | zero => intro k m h; simp [opWaitLoop] at h
  | succ fuel ih =>
    intro k m h
    simp only [opWaitLoop] at h
    by_cases h1 : 300 ≤ counts k
    · rw [if_pos h1] at h
      obtain rfl : k = m := by simpa using h
      exact ⟨le_refl k, Or.inl h1, fun i hi1 hi2 => by omega⟩
    · rw [if_neg h1] at h
      by_cases h2 : 1000 < elapsedMs k
      · rw [if_pos h2] at h
        obtain rfl : k = m := by simpa using h
        exact ⟨le_refl k, Or.inr h2, fun i hi1 hi2 => by omega⟩
      · rw [if_neg h2] at h
        obtain ⟨hkm, hcond, hbefore⟩ := ih (k + 1) m h
        refine ⟨by omega, hcond, fun i hi1 hi2 => ?_⟩
        rcases Nat.eq_or_lt_of_le hi1 with rfl | hlt
        · exact ⟨by omega, by omega⟩
        · exact hbefore i (by omega) hi2

lemma opWaitLoop_exits (counts elapsedMs : Nat → Nat) :
    ∀ (fuel k j : Nat), j < fuel →
      (300 ≤ counts (k + j) ∨ 1000 < elapsedMs (k + j)) →
      ∃ m, m ≤ k + j ∧ opWaitLoop counts elapsedMs fuel k = some m := by
  intro fuel
  induction fuel with
  | zero => intro k j hj; omega
  | succ fuel ih =>
    intro k j hj hcond
    simp only [opWaitLoop]
    by_cases h1 : 300 ≤ counts k
    · exact ⟨k, by omega, by rw [if_pos h1]⟩
    · rw [if_neg h1]
      by_cases h2 : 1000 < elapsedMs k
      · exact ⟨k, by omega, by rw [if_pos h2]⟩
      · rw [if_neg h2]
        have hj0 : j ≠ 0 := by
          rintro rfl
          simp only [Nat.add_zero] at hcond
          rcases hcond with h | h
          · exact h1 h
          · exact h2 h
        obtain ⟨m, hm1, hm2⟩ := ih (k + 1) (j - 1) (by omega) (by
          have : k + 1 + (j - 1) = k + j := by omega
          rw [this]
          exact hcond)
        exact ⟨m, by omega, hm2⟩

/-- C6: the pre-OP wait of `set_slaves_to_op_state_cst` runs until the
background thread's cycle counter reaches 300 or more than one second of
wall time has elapsed: whenever one of the two conditions is observed at
some check `j` (within the observed fuel), the loop exits at some check
`m ≤ j` at which one of the conditions holds, having observed at every
earlier check both fewer than 300 cycles and at most one second elapsed —
and the function then proceeds to write the Operational state request. -/
theorem c6_op_wait_300_cycles_or_1s (counts elapsedMs : Nat → Nat)
    (fuel j : Nat) (hj : j < fuel)
    (hcond : 300 ≤ counts j ∨ 1000 < elapsedMs j) :
    ∃ m ≤ j, opWaitLoop counts elapsedMs fuel 0 = some m ∧
      (300 ≤ counts m ∨ 1000 < elapsedMs m) ∧
      ∀ i < m, counts i < 300 ∧ elapsedMs i ≤ 1000 := by
  obtain ⟨m, hm1, hm2⟩ := opWaitLoop_exits counts elapsedMs fuel 0 j hj (by
    simpa using hcond)
  obtain ⟨-, hcond2, hbefore⟩ := opWaitLoop_sound counts elapsedMs fuel 0 m hm2
  exact ⟨m, by omega, hm2, hcond2, fun i hi => hbefore i (Nat.zero_le i) hi⟩

/-- Witness for `c6_op_wait_300_cycles_or_1s`: the thread reaches 300 cycles
at the very first check. -/
theorem c6_op_wait_300_cycles_or_1s_witness :
    (0 : Nat) < 1 ∧ (300 ≤ 300 ∨ 1000 < 0) ∧
      ∃ m ≤ 0, opWaitLoop (fun _ => 300) (fun _ => 0) 1 0 = some m ∧
        (300 ≤ (fun _ => 300 : Nat → Nat) m ∨ 1000 < (fun _ => 0 : Nat → Nat) m) ∧
        ∀ i < m, (fun _ => 300 : Nat → Nat) i < 300 ∧
          (fun _ => 0 : Nat → Nat) i ≤ 1000 :=
  ⟨by decide, Or.inl (by decide),
   c6_op_wait_300_cycles_or_1s (fun _ => 300) (fun _ => 0) 1 0 (by decide)
     (Or.inl (by decide))⟩

end ERobPysoem
